import Mathlib

/-!
Verification of the script-adaptation contract of the
amazon-sagemaker-pytorch-workshop repository.

The repository consists of a README and a teaching notebook
(`notebooks/instructor_workshop.ipynb`).  The notebook contains, verbatim,
the code that the workshop adds to the stock PyTorch MNIST training script
(the SageMaker argument additions, the device-selection line, the
artifact-save block), as well as the SageMaker estimator / tuner cells
(hyperparameter dictionaries, metric-definition regexes) and a sample of
the training output.  The Python scripts themselves
(`original_pytorch_mnist.py`, `sagemaker_pytorch_mnist.py`,
`serve_pytorch_mnist.py`) are referenced by the notebook but are not part
of the repository snapshot; where their behaviour decides a claim it is
modelled from the specification, and every such definition is marked
`Modelled from the spec:` in its doc comment.
-/

namespace SMWorkshop

/-! ## Environment and command-line configuration

Embedding of the three `parser.add_argument` lines that the notebook
instructs the learner to add to `main()` of `sagemaker_pytorch_mnist.py`:

  parser.add_argument with flag `--model-dir`, type str, default `os.environ` at `SM_MODEL_DIR`
  parser.add_argument with flag `--data-dir`,  type str, default `os.environ` at `SM_CHANNEL_TRAINING`
  parser.add_argument with flag `--num-gpus`,  type int, default `os.environ` at `SM_NUM_GPUS`

`os.environ` and the set of command-line overrides are both modelled as
association lists from names to string values.
-/

/-- An environment or a set of command-line overrides: an association list
from names to string values. -/
abbrev StrMap : Type := List (String × String)

/-- Lookup in an association list, first binding wins (models both
`os.environ` lookup and argparse retrieval of a supplied option). -/
def lookupStr (m : StrMap) (k : String) : Option String :=
  (m.find? (fun p => p.1 = k)).map (fun p => p.2)

/-- One SageMaker container argument added by the notebook: its
command-line flag and the environment variable its default is read from. -/
structure SMArgSpec where
  flag : String
  envVar : String
deriving DecidableEq, Repr

/-- The three SageMaker container arguments, exactly as added in the
notebook: `--model-dir` defaulting from `SM_MODEL_DIR`, `--data-dir`
defaulting from `SM_CHANNEL_TRAINING`, `--num-gpus` defaulting from
`SM_NUM_GPUS`. -/
def smArgs : List SMArgSpec :=
  [⟨"model-dir", "SM_MODEL_DIR"⟩,
   ⟨"data-dir", "SM_CHANNEL_TRAINING"⟩,
   ⟨"num-gpus", "SM_NUM_GPUS"⟩]

/-- Accumulating decimal evaluation of a character list: the denoted
natural number if every character is a decimal digit, else `none`. -/
def digitsToNatAux : Nat → List Char → Option Nat
  | acc, [] => some acc
  | acc, c :: t =>
    if c.isDigit then digitsToNatAux (acc * 10 + (c.toNat - 48)) t else none

/-- Embedding of Python `int()` as argparse `type=int` applies it to an
argument value: an optional sign followed by at least one decimal digit.
(Python additionally strips surrounding whitespace and allows
underscore separators; neither occurs in the values at hand.) -/
def strInt? (s : String) : Option Int :=
  match s.data with
  | [] => none
  | ['-'] => none
  | '-' :: ds => (digitsToNatAux 0 ds).map (fun n => -(n : Int))
  | ['+'] => none
  | '+' :: ds => (digitsToNatAux 0 ds).map (fun n => (n : Int))
  | ds => (digitsToNatAux 0 ds).map (fun n => (n : Int))

/-- The parsed SageMaker configuration: `args.model_dir`, `args.data_dir`,
`args.num_gpus` after `parser.parse_args()`. -/
structure SMConfig where
  modelDir : String
  dataDir : String
  numGpus : Int
deriving DecidableEq, Repr

/-- Embedding of argument parsing for the three SageMaker arguments.

Python semantics captured here:
* each `default=os.environ[...]` expression is evaluated eagerly when the
  argument is added, so a missing environment variable raises `KeyError`
  (modelled as `none`) before parsing, regardless of any command-line
  override;
* when an override is supplied on the command line it takes precedence
  over the environment default;
* `type=int` converts the effective value of `--num-gpus`; argparse only
  converts the string that is actually used, and a non-integer value is a
  fatal parse error (`strInt?` embeds Python `int()`). -/
def parseSMConfig (env overrides : StrMap) : Option SMConfig := do
  let mDefault ← lookupStr env "SM_MODEL_DIR"
  let dDefault ← lookupStr env "SM_CHANNEL_TRAINING"
  let gDefault ← lookupStr env "SM_NUM_GPUS"
  let gEffective := (lookupStr overrides "num-gpus").getD gDefault
  let g ← strInt? gEffective
  pure { modelDir := (lookupStr overrides "model-dir").getD mDefault,
         dataDir := (lookupStr overrides "data-dir").getD dDefault,
         numGpus := g }

/-! ## Device selection -/

/-- The device-selection line the notebook substitutes for the original
CUDA probe: `use_cuda = args.num_gpus > 0`.  The original expression
`not args.no_cuda and torch.cuda.is_available()` is removed, so the
GPU count is the only input to the decision. -/
def use_cuda (numGpus : Int) : Bool := numGpus > 0

/-! ## Artifact save and load -/

/-- The artifact file name used by the save block the notebook adds:
`torch.save(model.state_dict(), os.path.join(args.model_dir, "mnist_cnn.pt"))`. -/
def artifactFile : String := "mnist_cnn.pt"

/-- Whether string `s` begins with the character list `pre`. -/
def strStartsWith (s : String) (pre : List Char) : Bool :=
  pre.isPrefixOf s.data

/-- Whether string `s` ends with the character list `suf`. -/
def strEndsWith (s : String) (suf : List Char) : Bool :=
  suf.reverse.isPrefixOf s.data.reverse

/-- Embedding of `os.path.join(a, b)` on POSIX paths: an absolute second
component replaces the first; otherwise the components are joined with a
single separator. -/
def pathJoin (a b : String) : String :=
  if strStartsWith b ['/'] then b
  else if a = "" then b
  else if strEndsWith a ['/'] then a ++ b
  else a ++ "/" ++ b

/-- A filesystem fragment: an association list from paths to file
contents (`σ` is the opaque serialized form of a model state dict). -/
abbrev FS (σ : Type) : Type := List (String × σ)

/-- Write `v` at path `p`, overwriting any prior content at that path. -/
def fsWrite {σ : Type} (fs : FS σ) (p : String) (v : σ) : FS σ :=
  (p, v) :: fs.filter (fun q => q.1 ≠ p)

/-- Read the content at path `p`, if any. -/
def fsRead {σ : Type} (fs : FS σ) (p : String) : Option σ :=
  (fs.find? (fun q => q.1 = p)).map (fun q => q.2)

/-- Embedding of the conditional artifact write the notebook adds to the
end of `main()`:

  if `args.save_model` then assign `model_path` from
  `os.path.join(args.model_dir, "mnist_cnn.pt")` and call
  `torch.save(model.state_dict(), model_path)`, else do nothing.

`st` is the model state dict at save time. -/
def saveModelStep {σ : Type} (saveModel : Bool) (modelDir : String) (st : σ)
    (fs : FS σ) : FS σ :=
  if saveModel then fsWrite fs (pathJoin modelDir artifactFile) st else fs

/-- Embedding of the outcome of one invocation of the training script's
`main()`: first the argument parser runs (evaluating the
`os.environ` defaults eagerly), and only if parsing succeeds does any
computation happen; `finalState` is the model state dict the training
loop ends with, and the only filesystem effect of the script is the
conditional artifact write.  A parse failure leaves the filesystem
untouched and yields no configuration. -/
def trainMain {σ : Type} (env overrides : StrMap) (saveModel : Bool)
    (finalState : σ) (fs : FS σ) : Option SMConfig × FS σ :=
  match parseSMConfig env overrides with
  | none => (none, fs)
  | some cfg => (some cfg, saveModelStep saveModel cfg.modelDir finalState fs)

/-- Modelled from the spec: `serve_pytorch_mnist.py` is not part of the
repository snapshot; the notebook describes its `model_fn` as taking a
model directory and loading the model artifacts into a model instance,
and the spec (sections 4.2 and 6) states that it reads the artifact written
by the training script at the training output path, with an opaque
serialization that round-trips.  Accordingly `model_fn` reads the file at
`pathJoin modelDir artifactFile` and yields the stored state dict, and is
fatal (`none`) when no artifact is present. -/
def model_fn {σ : Type} (modelDir : String) (fs : FS σ) : Option σ :=
  fsRead fs (pathJoin modelDir artifactFile)

/-! ## Serving hook sequence

Modelled from the spec: the serving script itself is not part of the
repository snapshot.  The notebook's deploy section names the four
SageMaker serving hooks — `model_fn` (mandatory), `input_fn`,
`predict_fn`, `output_fn` (each optional with a default implementation) —
and the spec (sections 4.2 and 6) fixes the hosting runtime's invocation
discipline: model load happens exactly once at process start, and every
request then runs request-deserialize, predict, response-serialize in
that order.  The definitions below embed the life of one serving process
handling some number of requests as the sequence of hook invocations the
runtime performs, together with the loaded/unloaded state it induces. -/

/-- The four serving hooks of the SageMaker PyTorch model server, as
listed in the notebook's deploy section. -/
inductive ServeHook where
  | load
  | input_fn
  | predict_fn
  | output_fn
deriving DecidableEq, Repr

/-- The fixed per-request hook order: request-deserialize, predict,
response-serialize. -/
def requestHooks : List ServeHook :=
  [ServeHook.input_fn, ServeHook.predict_fn, ServeHook.output_fn]

/-- Modelled from the spec: the hook invocations performed by one serving
process that answers `n` requests — one model load at process start,
followed by the per-request sequence for each request. -/
def serveTrace (n : Nat) : List ServeHook :=
  ServeHook.load :: (List.replicate n requestHooks).flatten

/-- The serving process state of the spec's state machine. -/
inductive ServeState where
  | unloaded
  | ready
deriving DecidableEq, Repr

/-- State transition induced by one hook invocation: a model load moves
the process to ready; no hook ever unloads the model. -/
def stepState (s : ServeState) : ServeHook → ServeState
  | ServeHook.load => ServeState.ready
  | _ => s

/-- The process state after the first `k` hook invocations of trace `tr`,
starting unloaded. -/
def stateAt (tr : List ServeHook) (k : Nat) : ServeState :=
  (tr.take k).foldl stepState ServeState.unloaded

/-! ## Hyperparameter surface -/

/-- Modelled from the spec: the hyperparameter command-line arguments of
the training script (the original script is not part of the repository
snapshot; the notebook states its `ArgumentParser` already defines the
hyperparameters, and the spec (section 6) lists their names). -/
def hyperparameterSurface : List String :=
  ["batch-size", "test-batch-size", "epochs", "lr", "gamma", "seed", "save-model"]

/-- The keys of the `hyperparameters` dictionary of the training-job
estimator cell of the notebook. -/
def trainingJobHyperparameters : List String :=
  ["batch-size", "test-batch-size", "epochs", "lr", "gamma", "seed", "save-model"]

/-- The keys of the `hyperparameters` dictionary of the tuning-job
estimator cell of the notebook. -/
def tuningJobHyperparameters : List String :=
  ["batch-size", "test-batch-size", "epochs", "seed", "save-model"]

/-- The keys of the `hyperparameter_ranges` dictionary of the tuning cell
of the notebook. -/
def tuningRangeNames : List String := ["lr", "gamma"]

/-! ## Seeded training and determinism

Modelled from the spec: the body of the training script is not part of
the repository snapshot.  The spec (section 4.1) requires that a fixed
random seed be applied before model initialization and data shuffling.
In the stock script this is `torch.manual_seed(args.seed)` at the start
of `main()`, before the model is constructed and before the shuffled data
loaders are built.  The embedding threads an explicit RNG state: the
process inherits an ambient RNG state, the script's first action
overwrites it with the seed, and every stochastic operation (weight
initialization, per-epoch shuffling) draws from the threaded state.  The
numeric content of the loss is a surrogate; the claim under verification
is about run-to-run reproducibility of the emitted per-epoch losses, not
their values. -/

/-- A linear-congruential step standing for advancing the RNG state. -/
def rngNext (s : Nat) : Nat :=
  (6364136223846793005 * s + 1442695040888963407) % (2 ^ 64)

/-- Embedding of `torch.manual_seed(seed)`: the ambient RNG state is
discarded and replaced by the seed. -/
def manualSeed (seed : Nat) (_ambient : Nat) : Nat := seed

/-- Surrogate weight initialization: weights drawn from the RNG state. -/
def initWeights (r : Nat) : Nat := r % 997

/-- Surrogate shuffle: a rotation of the dataset determined by the RNG
state. -/
def shuffleData (ds : List Nat) (r : Nat) : List Nat :=
  ds.rotateLeft (r % (ds.length + 1))

/-- Surrogate per-epoch loss of weights `w` over dataset `ds`. -/
def epochLoss (w : Nat) (ds : List Nat) : Nat :=
  ds.foldl (fun acc x => acc + (x + w) % 1000) 0

/-- Surrogate weight update after an epoch with loss `l`. -/
def updateWeights (w l : Nat) : Nat := (w + l) % 997

/-- The per-epoch training losses: each epoch shuffles with the current
RNG state, computes the epoch loss, updates the weights and advances the
RNG state. -/
def runEpochs : Nat → Nat → Nat → List Nat → List Nat
  | 0, _, _, _ => []
  | e + 1, w, r, ds =>
    let l := epochLoss w (shuffleData ds r)
    l :: runEpochs e (updateWeights w l) (rngNext r) ds

/-- Hyperparameters relevant to the seeded run. -/
structure TrainHP where
  epochs : Nat
  seed : Nat
deriving DecidableEq, Repr

/-- One training run: the ambient RNG state is overwritten by
`manualSeed` before weight initialization and before any shuffling, and
the per-epoch losses are emitted. -/
def trainLosses (hp : TrainHP) (ds : List Nat) (ambient : Nat) : List Nat :=
  let r0 := manualSeed hp.seed ambient
  let w0 := initWeights (rngNext r0)
  runEpochs hp.epochs w0 (rngNext (rngNext r0)) ds

/-! ## Training log lines

Modelled from the spec: the training loop of the script is not part of
the repository snapshot.  The spec (section 4.1) fixes the progress-line
format as `Train Epoch:` epoch ` [` done `/` total ` (` pct `%)]` tab
`Loss: ` loss with the loss rendered to six decimals, and the evaluation
summary as `Test set: Average loss: ` avg `, Accuracy: ` correct `/`
total ` (` pct `%)` with the percentage rendered to zero decimals.  In
the stock script a progress line is printed for every batch index
divisible by the log interval (10), with done equal to the number of
samples already processed (batch index times batch size for the full
batches that get logged) and pct the batch index as a rounded percentage
of the number of batches; the sample output embedded in the notebook
(lines at 57600, 58240, 58880, 59520 of 60000, i.e. 640 samples apart)
pins both the interval and the fields.  Loss and average-loss values are
floating-point renderings and enter the model as opaque character
strings. -/

/-- Decimal rendering of a natural number, as Python `format` produces
for a natural value. -/
def natChars (n : Nat) : List Char := Nat.toDigits 10 n

/-- Rounding of `100 * num / den` to the nearest integer, as Python
`format` with zero decimals produces.  (Ties round to even in Python;
no quantity in this development ever falls exactly on a tie, so
round-half-up is used.) -/
def roundPct (num den : Nat) : Nat :=
  if den = 0 then 0 else (200 * num + den) / (2 * den)

/-- Number of batches of a dataset of `n` samples under batch size `bs`
(the length of the PyTorch data loader). -/
def numBatches (n bs : Nat) : Nat := (n + bs - 1) / bs

/-- The batch indices at which a progress line is printed: every index
divisible by the log interval. -/
def loggedBatches (n bs interval : Nat) : List Nat :=
  (List.range (numBatches n bs)).filter (fun i => i % interval = 0)

/-- The (done, pct) fields of the progress lines of one epoch, in
emission order: done is the processed-sample count and pct the rounded
batch-progress percentage. -/
def progressEntries (n bs interval : Nat) : List (Nat × Nat) :=
  (loggedBatches n bs interval).map
    (fun i => (i * bs, roundPct i (numBatches n bs)))

/-- The literal prefix of every progress line. -/
def litTE : List Char := "Train Epoch: ".data

/-- A progress line, assembled from its fields (the loss rendering is an
opaque character string).  The shape matches the contractual format:
`Train Epoch:` epoch ` [` done `/` total ` (` pct `%)]` tab `Loss: `
loss. -/
def mkProgressLine (epoch done total pct : Nat) (loss : List Char) : List Char :=
  litTE ++ (natChars epoch ++ ' ' :: '[' :: (natChars done
      ++ '/' :: (natChars total ++ [' '])))
    ++ '(' :: (natChars pct ++ '%' :: ')'
      :: ']' :: '\t' :: 'L' :: 'o' :: 's' :: 's' :: ':' :: ' ' :: loss)

/-- The evaluation summary line, assembled from its fields (the
average-loss rendering is an opaque character string). -/
def mkTestLine (avgLoss : List Char) (correct total pct : Nat) : List Char :=
  "Test set: Average loss: ".data ++ avgLoss ++ ", Accuracy: ".data
    ++ natChars correct ++ "/".data ++ natChars total ++ " (".data
    ++ natChars pct ++ "%)".data

/-- The progress lines of epoch `epoch` over `n` samples with batch size
`bs` and log interval `interval`, with `lossOf i` the rendered loss at
batch index `i`. -/
def epochProgressLines (epoch n bs interval : Nat) (lossOf : Nat → List Char) :
    List (List Char) :=
  (loggedBatches n bs interval).map
    (fun i => mkProgressLine epoch (i * bs) n (roundPct i (numBatches n bs)) (lossOf i))

/-! ## The train:accuracy metric regex

The notebook's `metric_definitions` track the metric named
`train:accuracy` with the regular expression

  `Train Epoch: .+\((.+)%\)`

applied to each log line via Python `re.search` semantics: the match
starts at the leftmost position where the whole pattern can match, each
`.+` is greedy (takes as many characters as possible, backtracking only
as far as needed), and the captured group is the characters matched by
`(.+)`.  The functions below implement exactly this pattern: the
outer `.+` is resolved by trying the candidate `(` positions from
rightmost to leftmost, and the inner `.+` by taking the capture up to the
last occurrence of `%)` in the remainder.  None of the log lines contain
a newline, so the newline exclusion of `.` is immaterial. -/

/-- All splits of `s` as `A ++ '(' :: R`, ordered with the rightmost
occurrence of `'('` first (the order a greedy `.+` explores them in). -/
def parenSplits : List Char → List (List Char × List Char)
  | [] => []
  | a :: rest =>
    ((parenSplits rest).map (fun pr => (a :: pr.1, pr.2)))
      ++ (if a = '(' then [([], rest)] else [])

/-- Split `r` as `B ++ '%' :: ')' :: C` at the last occurrence of the
two-character sequence `%)` (the split a greedy inner `.+` produces),
if one exists. -/
def splitLastPctClose : List Char → Option (List Char × List Char)
  | [] => none
  | a :: rest =>
    match splitLastPctClose rest with
    | some (b, c) => some (a :: b, c)
    | none =>
      if a = '%' then
        match rest with
        | ')' :: c => some ([], c)
        | _ => none
      else none

/-- Attempt to complete the pattern at one candidate split
`s = A ++ '(' :: R`: the outer `.+` requires `A` nonempty, and
`(.+)%\)` requires `R = B ++ '%' :: ')' :: C` with `B` nonempty; the
capture is `B`. -/
def tryCompletion (pr : List Char × List Char) : Option (List Char) :=
  if pr.1 = [] then none
  else
    match splitLastPctClose pr.2 with
    | some (b, _) => if b = [] then none else some b
    | none => none

/-- The capture of `.+\((.+)%\)` on the text after the literal prefix,
with greedy backtracking over the `(` candidates. -/
def captureCore (s : List Char) : Option (List Char) :=
  (parenSplits s).findSome? tryCompletion

/-- Python `re.search` for the full pattern: scan the start positions
left to right; at each position the literal `Train Epoch: ` must match
and the remainder of the pattern must complete. -/
def captureSearch : List Char → Option (List Char)
  | [] => none
  | a :: rest =>
    if litTE.isPrefixOf (a :: rest) then
      match captureCore (List.drop litTE.length (a :: rest)) with
      | some b => some b
      | none => captureSearch rest
    else captureSearch rest

/-- The value captured by the `train:accuracy` metric definition
`Train Epoch: .+\((.+)%\)` from one log line. -/
def captureTrainAcc (s : List Char) : Option (List Char) := captureSearch s

/-! ## Helper lemmas -/

theorem parseSMConfig_none_of_missing (env ov : StrMap)
    (h : lookupStr env "SM_MODEL_DIR" = none
       ∨ lookupStr env "SM_CHANNEL_TRAINING" = none
       ∨ lookupStr env "SM_NUM_GPUS" = none) :
    parseSMConfig env ov = none := by
  unfold parseSMConfig
  rcases h with h | h | h
  · simp [h]
  · cases hm : lookupStr env "SM_MODEL_DIR" <;> simp [hm, h]
  · cases hm : lookupStr env "SM_MODEL_DIR" <;> simp [hm]
    cases hd : lookupStr env "SM_CHANNEL_TRAINING" <;> simp [hd, h]

theorem find?_and_ne {σ : Type} (fs : FS σ) (p q : String) (h : q ≠ p) :
    fs.find? (fun e => !decide (e.1 = p) && decide (e.1 = q))
      = fs.find? (fun e => decide (e.1 = q)) := by
  induction fs with
  | nil => rfl
  | cons a t ih =>
    by_cases hq : a.1 = q
    · have hp : ¬(a.1 = p) := by rw [hq]; exact h
      simp [List.find?_cons, hq, hp, h]
    · simp [List.find?_cons, hq, ih]

theorem fsRead_fsWrite_self {σ : Type} (fs : FS σ) (p : String) (v : σ) :
    fsRead (fsWrite fs p v) p = some v := by
  simp [fsRead, fsWrite, List.find?]

theorem fsRead_fsWrite_other {σ : Type} (fs : FS σ) (p : String) (v : σ)
    (q : String) (h : q ≠ p) :
    fsRead (fsWrite fs p v) q = fsRead fs q := by
  have hne : ¬(p = q) := fun hh => h hh.symm
  simp only [fsRead, fsWrite, List.find?_cons]
  simp only [List.find?_filter]
  simp [hne, find?_and_ne fs p q h]

theorem countP_fsWrite {σ : Type} (fs : FS σ) (p : String) (v : σ) :
    (fsWrite fs p v).countP (fun e => e.1 = p) = 1 := by
  have hz : (fs.filter (fun e => e.1 ≠ p)).countP (fun e => e.1 = p) = 0 := by
    rw [List.countP_eq_zero]
    intro a ha
    have := List.of_mem_filter ha
    simpa using this
  simp [fsWrite, List.countP_cons, hz]

theorem runEpochs_length (e w r : Nat) (ds : List Nat) :
    (runEpochs e w r ds).length = e := by
  induction e generalizing w r with
  | zero => rfl
  | succ e ih => simp [runEpochs, ih]

/-! ## Claim theorems -/

/-- C2: accelerated (GPU) computation is used if and only if the
externally supplied accelerator count is greater than zero.  The
embedded `use_cuda` is exactly the notebook's replacement line
`use_cuda = args.num_gpus > 0`; it takes no other input, so in
particular no local hardware probe (the removed
`torch.cuda.is_available()`) is consulted. -/
theorem use_cuda_iff_gpus_pos (n : Int) : use_cuda n = true ↔ 0 < n := by
  simp [use_cuda]

/-- Witness for C2 at concrete accelerator counts. -/
theorem use_cuda_iff_gpus_pos_witness : use_cuda 4 = true :=
  (use_cuda_iff_gpus_pos 4).mpr (by norm_num)

/-- C1 counterexample: the claim names the externally supplied variables
`MODEL_DIR`, `DATA_DIR` and `NUM_GPUS`, but the variables the script
reads are `SM_MODEL_DIR`, `SM_CHANNEL_TRAINING` and `SM_NUM_GPUS`: a
host-managed invocation supplying exactly the claimed names aborts at
parsing, while one supplying the `SM_`-prefixed names succeeds, and
`DATA_DIR` appears nowhere in the argument specifications. -/
theorem configSurfaceNames_cex :
    parseSMConfig
        [("MODEL_DIR", "/opt/ml/model"), ("DATA_DIR", "/opt/ml/input/data/training"),
         ("NUM_GPUS", "1")] [] = none
  ∧ parseSMConfig
        [("SM_MODEL_DIR", "/opt/ml/model"),
         ("SM_CHANNEL_TRAINING", "/opt/ml/input/data/training"),
         ("SM_NUM_GPUS", "1")] []
      = some { modelDir := "/opt/ml/model",
               dataDir := "/opt/ml/input/data/training", numGpus := 1 }
  ∧ (smArgs.map SMArgSpec.envVar).contains "DATA_DIR" = false
  ∧ smArgs.map SMArgSpec.envVar = ["SM_MODEL_DIR", "SM_CHANNEL_TRAINING", "SM_NUM_GPUS"] := by
  refine ⟨rfl, rfl, by decide, by decide⟩

/-- C1 (amended): the training script's configuration surface consists
of three externally supplied variables named `SM_MODEL_DIR` (output path
for artifacts), `SM_CHANNEL_TRAINING` (input dataset path) and
`SM_NUM_GPUS` (accelerator count); all three are mandatory under
host-managed execution (a missing one is fatal at parse time), each is
also obtainable as an equivalent explicit command-line override
(`--model-dir`, `--data-dir`, `--num-gpus`), and when both the override
and the external variable are present the override takes precedence. -/
theorem configSurface_amended :
    (smArgs.map SMArgSpec.envVar = ["SM_MODEL_DIR", "SM_CHANNEL_TRAINING", "SM_NUM_GPUS"]
      ∧ smArgs.map SMArgSpec.flag = ["model-dir", "data-dir", "num-gpus"])
  ∧ (∀ env ov : StrMap,
       (lookupStr env "SM_MODEL_DIR" = none
          ∨ lookupStr env "SM_CHANNEL_TRAINING" = none
          ∨ lookupStr env "SM_NUM_GPUS" = none) →
       parseSMConfig env ov = none)
  ∧ (∀ (env ov : StrMap) (cfg : SMConfig), parseSMConfig env ov = some cfg →
       (∀ s, lookupStr ov "model-dir" = some s → cfg.modelDir = s)
     ∧ (∀ s, lookupStr ov "data-dir" = some s → cfg.dataDir = s)
     ∧ (∀ s k, lookupStr ov "num-gpus" = some s → strInt? s = some k →
          cfg.numGpus = k)) := by
  refine ⟨⟨by decide, by decide⟩, parseSMConfig_none_of_missing, ?_⟩
  intro env ov cfg hcfg
  simp only [parseSMConfig, Option.bind_eq_bind, Option.bind_eq_some, Option.pure_def,
    Option.some.injEq] at hcfg
  obtain ⟨m, hm, d, hd, g, hg, k, hk, hcfg2⟩ := hcfg
  refine ⟨?_, ?_, ?_⟩
  · intro s hs
    rw [← hcfg2]
    simp [hs]
  · intro s hs
    rw [← hcfg2]
    simp [hs]
  · intro s k2 hs hk2
    rw [← hcfg2]
    rw [hs] at hk
    simp only [Option.getD_some] at hk
    rw [hk] at hk2
    simp only [Option.some.injEq] at hk2
    simp [hk2]

/-- Witness for C1 (amended) at a concrete environment: the override
`--model-dir /local` beats the environment value, the num-gpus override
is likewise honoured, and removing `SM_NUM_GPUS` is fatal. -/
theorem configSurface_amended_witness :
    (SMConfig.mk "/local" "/opt/ml/data" 2).modelDir = "/local"
  ∧ (SMConfig.mk "/local" "/opt/ml/data" 2).numGpus = 2
  ∧ parseSMConfig [("SM_MODEL_DIR", "/opt/ml/model"), ("SM_CHANNEL_TRAINING", "/opt/ml/data")]
      [("model-dir", "/local")] = none := by
  refine ⟨?_, ?_, ?_⟩
  · exact (configSurface_amended.2.2
      [("SM_MODEL_DIR", "/opt/ml/model"), ("SM_CHANNEL_TRAINING", "/opt/ml/data"),
       ("SM_NUM_GPUS", "0")]
      [("model-dir", "/local"), ("num-gpus", "2")]
      (SMConfig.mk "/local" "/opt/ml/data" 2) (by decide)).1 "/local" (by decide)
  · exact (configSurface_amended.2.2
      [("SM_MODEL_DIR", "/opt/ml/model"), ("SM_CHANNEL_TRAINING", "/opt/ml/data"),
       ("SM_NUM_GPUS", "0")]
      [("model-dir", "/local"), ("num-gpus", "2")]
      (SMConfig.mk "/local" "/opt/ml/data" 2) (by decide)).2.2 "2" 2 (by decide) (by decide)
  · exact configSurface_amended.2.1
      [("SM_MODEL_DIR", "/opt/ml/model"), ("SM_CHANNEL_TRAINING", "/opt/ml/data")]
      [("model-dir", "/local")] (Or.inr (Or.inr (by decide)))

/-- C5: under host-managed invocation, absence of any one of the three
required externally supplied variables (the output path `SM_MODEL_DIR`,
the dataset path `SM_CHANNEL_TRAINING`, the accelerator count
`SM_NUM_GPUS` — the spec's MODEL_DIR, DATA_DIR, NUM_GPUS) aborts the
process at argument parsing, before any computation: no configuration is
produced and the filesystem — in particular any partial artifact — is
left exactly as it was. -/
theorem missingEnvVarFatal {σ : Type} (env ov : StrMap) (saveModel : Bool)
    (st : σ) (fs : FS σ)
    (h : lookupStr env "SM_MODEL_DIR" = none
       ∨ lookupStr env "SM_CHANNEL_TRAINING" = none
       ∨ lookupStr env "SM_NUM_GPUS" = none) :
    trainMain env ov saveModel st fs = (none, fs) := by
  unfold trainMain
  rw [parseSMConfig_none_of_missing env ov h]

/-- Witness for C5: an environment missing `SM_CHANNEL_TRAINING` makes
the run abort with the filesystem untouched. -/
theorem missingEnvVarFatal_witness :
    trainMain [("SM_MODEL_DIR", "/opt/ml/model"), ("SM_NUM_GPUS", "1")] [] true
      (0 : Nat) [("/opt/ml/model/old.pt", 7)]
      = (none, [("/opt/ml/model/old.pt", 7)]) :=
  missingEnvVarFatal _ _ _ _ _ (Or.inr (Or.inl (by decide)))

/-- C4: the artifact write is conditional on the explicit save flag.
With save-model enabled, the weights are written to exactly one file, at
`pathJoin dir artifactFile` — that is, `<output-path>/mnist_cnn.pt` —
overwriting any prior content at that path and touching no other path;
with save-model disabled, the filesystem is unchanged, so no artifact
file is written. -/
theorem artifactWriteConditional :
    (∀ (σ : Type) (dir : String) (st : σ) (fs : FS σ),
        fsRead (saveModelStep true dir st fs) (pathJoin dir artifactFile) = some st
      ∧ (∀ q, q ≠ pathJoin dir artifactFile →
          fsRead (saveModelStep true dir st fs) q = fsRead fs q)
      ∧ (saveModelStep true dir st fs).countP
          (fun e => e.1 = pathJoin dir artifactFile) = 1)
  ∧ (∀ (σ : Type) (dir : String) (st : σ) (fs : FS σ),
      saveModelStep false dir st fs = fs) := by
  constructor
  · intro σ dir st fs
    refine ⟨fsRead_fsWrite_self _ _ _, ?_, countP_fsWrite _ _ _⟩
    intro q hq
    exact fsRead_fsWrite_other _ _ _ _ hq
  · intro σ dir st fs
    rfl

/-- Witness for C4 at a concrete run: saving overwrites the stale
artifact at `/opt/ml/model/mnist_cnn.pt`, leaves the unrelated file
alone, and the disabled flag writes nothing. -/
theorem artifactWriteConditional_witness :
    fsRead (saveModelStep true "/opt/ml/model" (5 : Nat)
        [("/opt/ml/model/mnist_cnn.pt", 1), ("/other", 2)]) "/opt/ml/model/mnist_cnn.pt"
      = some 5
  ∧ fsRead (saveModelStep true "/opt/ml/model" (5 : Nat)
        [("/opt/ml/model/mnist_cnn.pt", 1), ("/other", 2)]) "/other"
      = fsRead [("/opt/ml/model/mnist_cnn.pt", 1), ("/other", 2)] "/other"
  ∧ saveModelStep false "/opt/ml/model" (5 : Nat) [("/other", 2)] = [("/other", 2)] := by
  refine ⟨?_, ?_, ?_⟩
  · exact (artifactWriteConditional.1 Nat "/opt/ml/model" 5
      [("/opt/ml/model/mnist_cnn.pt", 1), ("/other", 2)]).1
  · exact (artifactWriteConditional.1 Nat "/opt/ml/model" 5
      [("/opt/ml/model/mnist_cnn.pt", 1), ("/other", 2)]).2.1 "/other" (by decide)
  · exact artifactWriteConditional.2 Nat "/opt/ml/model" 5 [("/other", 2)]

/-- C7: round-trip law.  For every training run with save-model enabled
that completes (parses its configuration and finishes), exactly one
artifact file exists at the configured output path, loading it back
through the serving script's load routine `model_fn` recovers exactly
the state dict that was saved, and therefore every prediction function
applied to the loaded model agrees bit-for-bit with the in-memory model
state at save time. -/
theorem saveLoadRoundTrip :
    ∀ (σ I O : Type) (env ov : StrMap) (st : σ) (fs : FS σ)
      (cfg : SMConfig) (fs2 : FS σ),
      trainMain env ov true st fs = (some cfg, fs2) →
        model_fn cfg.modelDir fs2 = some st
      ∧ fs2.countP (fun e => e.1 = pathJoin cfg.modelDir artifactFile) = 1
      ∧ (∀ (fwd : σ → I → O) (x : I) (st2 : σ),
          model_fn cfg.modelDir fs2 = some st2 → fwd st2 x = fwd st x) := by
  intro σ I O env ov st fs cfg fs2 hrun
  unfold trainMain at hrun
  cases hp : parseSMConfig env ov with
  | none =>
    rw [hp] at hrun
    exact absurd (congrArg Prod.fst hrun) (by simp)
  | some c =>
    rw [hp] at hrun
    simp only [Prod.mk.injEq, Option.some.injEq] at hrun
    obtain ⟨hc, hfs⟩ := hrun
    rw [← hc, ← hfs]
    have h1 : model_fn c.modelDir (saveModelStep true c.modelDir st fs) = some st :=
      fsRead_fsWrite_self _ _ _
    refine ⟨h1, countP_fsWrite _ _ _, ?_⟩
    intro fwd x st2 h2
    rw [h1] at h2
    simp only [Option.some.injEq] at h2
    rw [h2]

/-- Witness for C7 at a concrete completed run. -/
theorem saveLoadRoundTrip_witness :
    model_fn "/opt/ml/model"
      (trainMain [("SM_MODEL_DIR", "/opt/ml/model"), ("SM_CHANNEL_TRAINING", "/d"),
        ("SM_NUM_GPUS", "0")] [] true (42 : Nat) []).2 = some 42 :=
  (saveLoadRoundTrip Nat Nat Nat
    [("SM_MODEL_DIR", "/opt/ml/model"), ("SM_CHANNEL_TRAINING", "/d"), ("SM_NUM_GPUS", "0")]
    [] 42 [] (SMConfig.mk "/opt/ml/model" "/d" 0) _ (by decide)).1

/-- C8: every hyperparameter name used by the notebook's external
training-job and tuning-job definitions matches a name of the script's
hyperparameter surface (`batch-size`, `test-batch-size`, `epochs`, `lr`,
`gamma`, `seed`, `save-model`) verbatim; the training job names exactly
the seven surface names. -/
theorem hyperparameterNamesMatch :
    trainingJobHyperparameters = hyperparameterSurface
  ∧ (tuningJobHyperparameters ++ tuningRangeNames).all
      (fun n => hyperparameterSurface.contains n) = true
  ∧ hyperparameterSurface.length = 7 := by
  refine ⟨rfl, by decide, rfl⟩

/-- C9: determinism.  Two training runs with the same hyperparameters
(including the seed) over the same dataset emit identical per-epoch loss
lists, whatever ambient RNG state each process happened to inherit,
because `manualSeed` overwrites the RNG state before weight
initialization and before any shuffling; the emitted list has one loss
per epoch. -/
theorem seedDeterminism :
    ∀ (hp : TrainHP) (ds : List Nat) (a1 a2 : Nat),
      trainLosses hp ds a1 = trainLosses hp ds a2
    ∧ (trainLosses hp ds a1).length = hp.epochs := by
  intro hp ds a1 a2
  exact ⟨rfl, runEpochs_length _ _ _ _⟩

/-- Witness for C9 at a concrete hyperparameter set, dataset and two
distinct ambient RNG states. -/
theorem seedDeterminism_witness :
    trainLosses (TrainHP.mk 3 1) [5, 9, 2] 17 = trainLosses (TrainHP.mk 3 1) [5, 9, 2] 9001
  ∧ (trainLosses (TrainHP.mk 3 1) [5, 9, 2] 17).length = 3 :=
  seedDeterminism (TrainHP.mk 3 1) [5, 9, 2] 17 9001

theorem count_load_flatten (n : Nat) :
    ((List.replicate n requestHooks).flatten.count ServeHook.load) = 0 := by
  induction n with
  | zero => rfl
  | succ n ih =>
    rw [List.replicate_succ, List.flatten_cons, List.count_append, ih]
    rfl

theorem foldl_stepState_ready (l : List ServeHook) :
    l.foldl stepState ServeState.ready = ServeState.ready := by
  induction l with
  | nil => rfl
  | cons a t ih =>
    have h : stepState ServeState.ready a = ServeState.ready := by
      cases a <;> rfl
    rw [List.foldl_cons, h, ih]

theorem stateAt_serveTrace_pos (n k : Nat) (hk : 1 ≤ k) :
    stateAt (serveTrace n) k = ServeState.ready := by
  obtain ⟨k2, rfl⟩ := Nat.exists_eq_add_of_le hk
  unfold stateAt serveTrace
  rw [Nat.add_comm 1 k2, List.take_succ_cons, List.foldl_cons]
  exact foldl_stepState_ready _

theorem flatten_replicate_segment (n j : Nat) (hj : j < n) :
    ((List.replicate n requestHooks).flatten.drop (3 * j)).take 3 = requestHooks := by
  induction n generalizing j with
  | zero => exact absurd hj (Nat.not_lt_zero j)
  | succ n ih =>
    rw [List.replicate_succ, List.flatten_cons]
    cases j with
    | zero =>
      rw [Nat.mul_zero, List.drop_zero]
      exact (show List.take requestHooks.length (requestHooks ++ _) = requestHooks
        from List.take_left _ _)
    | succ j2 =>
      have h3 : 3 * (j2 + 1) = requestHooks.length + 3 * j2 := by
        simp only [requestHooks, List.length_cons, List.length_nil]
        omega
      rw [h3, ← List.drop_drop, List.drop_left]
      exact ih j2 (by omega)

/-- C6: the serving component follows the state machine
unloaded, then load, then ready, then any number of predict requests
staying ready.  In the trace of a process handling `n` requests the
mandatory load hook is invoked exactly once and before anything else,
the process starts unloaded and is ready at every later point (no
transition back to unloaded short of a process restart, which is a new
trace), the predict hook is never invoked while unloaded, and each
request runs the three optional hooks in the fixed order
request-deserialize, predict, response-serialize. -/
theorem servingStateMachine (n : Nat) :
    (serveTrace n).count ServeHook.load = 1
  ∧ (serveTrace n).head? = some ServeHook.load
  ∧ stateAt (serveTrace n) 0 = ServeState.unloaded
  ∧ (∀ k, 1 ≤ k → stateAt (serveTrace n) k = ServeState.ready)
  ∧ (∀ i, (serveTrace n).get? i = some ServeHook.predict_fn →
        stateAt (serveTrace n) i = ServeState.ready)
  ∧ (∀ j, j < n → ((serveTrace n).drop (1 + 3 * j)).take 3 = requestHooks) := by
  refine ⟨?_, rfl, rfl, fun k hk => stateAt_serveTrace_pos n k hk, ?_, ?_⟩
  · unfold serveTrace
    rw [List.count_cons_self, count_load_flatten]
  · intro i hi
    cases i with
    | zero => simp [serveTrace] at hi
    | succ i2 => exact stateAt_serveTrace_pos n (i2 + 1) (by omega)
  · intro j hj
    unfold serveTrace
    rw [Nat.add_comm 1 (3 * j), List.drop_succ_cons]
    exact flatten_replicate_segment n j hj

/-- Witness for C6 at a concrete request count. -/
theorem servingStateMachine_witness :
    stateAt (serveTrace 2) 4 = ServeState.ready
  ∧ ((serveTrace 2).drop 4).take 3 = requestHooks :=
  ⟨(servingStateMachine 2).2.2.2.1 4 (by omega),
   (servingStateMachine 2).2.2.2.2.2 1 (by omega)⟩

theorem roundPct_le_100 (c t : Nat) (h : c ≤ t) : roundPct c t ≤ 100 := by
  unfold roundPct
  rcases Nat.eq_zero_or_pos t with ht | ht
  · simp [ht]
  · rw [if_neg (Nat.pos_iff_ne_zero.mp ht)]
    have hlt : 200 * c + t < 101 * (2 * t) := by omega
    have := (Nat.div_lt_iff_lt_mul (by omega : 0 < 2 * t)).mpr hlt
    omega

set_option maxRecDepth 100000 in
/-- C3: the training progress lines and the evaluation summary have the
contractual formats.  The assembled progress line reproduces, character
for character, the sample lines of the notebook's example output, and
the assembled summary line reproduces its sample `Test set` line, whose
98 percent is exactly the rounded 9799 of 10000.  In the end-to-end
scenario — one epoch over 60000 samples with batch size 64 and log
interval 10 — the emitted (done, pct) progress fields start at
(0, 0 percent), end at (59520, 99 percent), and pass through the four
sample points; and for every evaluation outcome with at most as many
correct answers as test samples the accuracy percentage lies between 0
and 100. -/
theorem trainingLogFormat :
    mkProgressLine 1 57600 60000 96 "0.161597".data
      = "Train Epoch: 1 [57600/60000 (96%)]\tLoss: 0.161597".data
  ∧ mkProgressLine 1 59520 60000 99 "0.104489".data
      = "Train Epoch: 1 [59520/60000 (99%)]\tLoss: 0.104489".data
  ∧ mkTestLine "0.0602".data 9799 10000 98
      = "Test set: Average loss: 0.0602, Accuracy: 9799/10000 (98%)".data
  ∧ roundPct 9799 10000 = 98
  ∧ (progressEntries 60000 64 10).head? = some (0, 0)
  ∧ (progressEntries 60000 64 10).getLast? = some (59520, 99)
  ∧ ([(57600, 96), (58240, 97), (58880, 98), (59520, 99)].all
      (fun pr => (progressEntries 60000 64 10).contains pr)) = true
  ∧ (∀ correct total : Nat, correct ≤ total → roundPct correct total ≤ 100) := by
  refine ⟨by decide, by decide, by decide, by decide, by decide, by decide, by decide,
    roundPct_le_100⟩

/-- Witness for C3: the accuracy-percentage bound at the sample
evaluation outcome 9799 of 10000. -/
theorem trainingLogFormat_witness : roundPct 9799 10000 ≤ 100 :=
  trainingLogFormat.2.2.2.2.2.2.2 9799 10000 (by omega)

theorem digitChar_isDigit (n : Nat) (h : n < 10) :
    (Nat.digitChar n).isDigit = true := by
  interval_cases n <;> decide

theorem toDigitsCore_digits (f : Nat) :
    ∀ (n : Nat) (ds : List Char), (∀ c ∈ ds, c.isDigit = true) →
      ∀ c ∈ Nat.toDigitsCore 10 f n ds, c.isDigit = true := by
  induction f with
  | zero => intro n ds hds c hc; exact hds c hc
  | succ f ih =>
    intro n ds hds c hc
    have hcons : ∀ c2 ∈ Nat.digitChar (n % 10) :: ds, c2.isDigit = true := by
      intro c2 hc2
      rcases List.mem_cons.mp hc2 with rfl | h2
      · exact digitChar_isDigit (n % 10) (Nat.mod_lt n (by omega))
      · exact hds c2 h2
    simp only [Nat.toDigitsCore] at hc
    split at hc
    · rcases List.mem_cons.mp hc with rfl | h2
      · exact digitChar_isDigit (n % 10) (Nat.mod_lt n (by omega))
      · exact hds c h2
    · exact ih (n / 10) (Nat.digitChar (n % 10) :: ds) hcons c hc

theorem toDigitsCore_length_mono (f : Nat) :
    ∀ (n : Nat) (ds : List Char),
      ds.length ≤ (Nat.toDigitsCore 10 f n ds).length := by
  induction f with
  | zero => intro n ds; exact Nat.le_refl _
  | succ f ih =>
    intro n ds
    simp only [Nat.toDigitsCore]
    split
    · simp
    · exact le_trans (by simp) (ih (n / 10) (Nat.digitChar (n % 10) :: ds))

theorem natChars_ne_nil (n : Nat) : natChars n ≠ [] := by
  unfold natChars Nat.toDigits
  intro h
  have h1 : 1 ≤ (Nat.toDigitsCore 10 (n + 1) n []).length := by
    simp only [Nat.toDigitsCore]
    split
    · simp
    · exact le_trans (by simp) (toDigitsCore_length_mono n (n / 10) [Nat.digitChar (n % 10)])
  rw [h] at h1
  simp at h1

theorem natChars_digit (n : Nat) : ∀ c ∈ natChars n, c.isDigit = true :=
  toDigitsCore_digits (n + 1) n [] (by intro c hc; exact absurd hc (List.not_mem_nil c))

theorem isDigit_ne_special (c : Char) (h : c.isDigit = true) :
    c ≠ '(' ∧ c ≠ '%' ∧ c ≠ ')' := by
  refine ⟨?_, ?_, ?_⟩ <;> intro hEq <;> subst hEq <;> exact absurd h (by decide)

theorem parenSplits_of_no_paren (l : List Char) (h : ∀ c ∈ l, c ≠ '(') :
    parenSplits l = [] := by
  induction l with
  | nil => rfl
  | cons a t ih =>
    have ha : a ≠ '(' := h a (List.mem_cons_self a t)
    have ht := ih (fun c hc => h c (List.mem_cons_of_mem a hc))
    simp [parenSplits, ha, ht]

theorem parenSplits_unique (P Q : List Char) (hP : ∀ c ∈ P, c ≠ '(')
    (hQ : ∀ c ∈ Q, c ≠ '(') :
    parenSplits (P ++ '(' :: Q) = [(P, Q)] := by
  induction P with
  | nil =>
    simp [parenSplits, parenSplits_of_no_paren Q hQ]
  | cons a t ih =>
    have ha : a ≠ '(' := hP a (List.mem_cons_self a t)
    have ht := ih (fun c hc => hP c (List.mem_cons_of_mem a hc))
    simp [parenSplits, ha, ht]

theorem splitLastPctClose_of_no_pct (l : List Char) (h : ∀ c ∈ l, c ≠ '%') :
    splitLastPctClose l = none := by
  induction l with
  | nil => rfl
  | cons a t ih =>
    have ha : a ≠ '%' := h a (List.mem_cons_self a t)
    have ht := ih (fun c hc => h c (List.mem_cons_of_mem a hc))
    simp [splitLastPctClose, ha, ht]

theorem splitLastPctClose_append (B C : List Char) (hC : ∀ c ∈ C, c ≠ '%') :
    splitLastPctClose (B ++ '%' :: ')' :: C) = some (B, C) := by
  induction B with
  | nil =>
    have h2 : splitLastPctClose C = none := splitLastPctClose_of_no_pct C hC
    simp [splitLastPctClose, h2]
  | cons b t ih =>
    simp [splitLastPctClose, ih]

theorem tryCompletion_shape (P pS C2 : List Char) (hPne : P ≠ [])
    (hpSne : pS ≠ []) (hCpct : ∀ c ∈ C2, c ≠ '%') :
    tryCompletion (P, pS ++ '%' :: ')' :: C2) = some pS := by
  unfold tryCompletion
  rw [if_neg hPne, splitLastPctClose_append pS C2 hCpct]
  simp [hpSne]

theorem captureCore_shape (P pS C2 : List Char)
    (hP : ∀ c ∈ P, c ≠ '(') (hPne : P ≠ [])
    (hpS : ∀ c ∈ pS, c ≠ '(') (hpSne : pS ≠ [])
    (hC : ∀ c ∈ C2, c ≠ '(') (hCpct : ∀ c ∈ C2, c ≠ '%') :
    captureCore (P ++ '(' :: (pS ++ '%' :: ')' :: C2)) = some pS := by
  have hQ : ∀ c ∈ pS ++ '%' :: ')' :: C2, c ≠ '(' := by
    intro c hc
    rcases List.mem_append.mp hc with h1 | h1
    · exact hpS c h1
    · rcases List.mem_cons.mp h1 with rfl | h2
      · decide
      · rcases List.mem_cons.mp h2 with rfl | h3
        · decide
        · exact hC c h3
  unfold captureCore
  rw [parenSplits_unique P _ hP hQ]
  simp [List.findSome?, tryCompletion_shape P pS C2 hPne hpSne hCpct]

theorem isPrefixOf_append_self (l1 l2 : List Char) :
    l1.isPrefixOf (l1 ++ l2) = true := by
  induction l1 with
  | nil => simp [List.isPrefixOf]
  | cons a t ih => simp [List.isPrefixOf, ih]

theorem captureSearch_cons (a : Char) (rest : List Char) :
    captureSearch (a :: rest) =
      if litTE.isPrefixOf (a :: rest) then
        match captureCore (List.drop litTE.length (a :: rest)) with
        | some b => some b
        | none => captureSearch rest
      else captureSearch rest := rfl

theorem captureSearch_append (X b : List Char) (h : captureCore X = some b) :
    captureSearch (litTE ++ X) = some b := by
  have hpre : litTE.isPrefixOf ('T' :: ("rain Epoch: ".data ++ X)) = true :=
    isPrefixOf_append_self litTE X
  have hdrop : List.drop litTE.length ('T' :: ("rain Epoch: ".data ++ X)) = X :=
    List.drop_left litTE X
  rw [show litTE ++ X = 'T' :: ("rain Epoch: ".data ++ X) from rfl,
    captureSearch_cons, if_pos hpre, hdrop, h]

/-- C10: on every line of the contractual progress format — whatever the
epoch, done, total and pct numerals and whatever six-decimal loss
rendering it carries — the value captured by the `train:accuracy` metric
definition (regex `Train Epoch: .+\((.+)%\)` under Python `re.search`
semantics) is exactly the pct numeral, i.e. the processed-sample
progress percentage the training loop printed there; the progress line
carries no model-accuracy figure for the regex to find. -/
theorem trainAccuracyCapturesProgressPct (e d t p : Nat) (loss : List Char)
    (hloss : ∀ c ∈ loss, c.isDigit = true ∨ c = '.') :
    captureTrainAcc (mkProgressLine e d t p loss) = some (natChars p) := by
  unfold captureTrainAcc mkProgressLine
  rw [List.append_assoc]
  apply captureSearch_append
  apply captureCore_shape
  · intro c hc
    simp only [List.mem_append, List.mem_cons, List.not_mem_nil, or_false] at hc
    rcases hc with h1 | rfl | rfl | h1 | rfl | h1 | rfl
    · exact (isDigit_ne_special c (natChars_digit e c h1)).1
    · decide
    · decide
    · exact (isDigit_ne_special c (natChars_digit d c h1)).1
    · decide
    · exact (isDigit_ne_special c (natChars_digit t c h1)).1
    · decide
  · simp
  · intro c hc
    exact (isDigit_ne_special c (natChars_digit p c hc)).1
  · exact natChars_ne_nil p
  · intro c hc
    simp only [List.mem_cons] at hc
    rcases hc with rfl | rfl | rfl | rfl | rfl | rfl | rfl | rfl | h1
    · decide
    · decide
    · decide
    · decide
    · decide
    · decide
    · decide
    · decide
    · rcases hloss c h1 with hd | rfl
      · exact (isDigit_ne_special c hd).1
      · decide
  · intro c hc
    simp only [List.mem_cons] at hc
    rcases hc with rfl | rfl | rfl | rfl | rfl | rfl | rfl | rfl | h1
    · decide
    · decide
    · decide
    · decide
    · decide
    · decide
    · decide
    · decide
    · rcases hloss c h1 with hd | rfl
      · exact (isDigit_ne_special c hd).2.1
      · decide

/-- Witness for C10 at the notebook's final sample progress line: the
captured value is the progress percentage 99. -/
theorem trainAccuracyCapturesProgressPct_witness :
    captureTrainAcc ("Train Epoch: 1 [59520/60000 (99%)]\tLoss: 0.104489".data)
      = some ['9', '9'] := by
  have h := trainAccuracyCapturesProgressPct 1 59520 60000 99 "0.104489".data
    (by decide)
  have he : mkProgressLine 1 59520 60000 99 "0.104489".data
      = "Train Epoch: 1 [59520/60000 (99%)]\tLoss: 0.104489".data := by decide
  have hn : natChars 99 = ['9', '9'] := by decide
  rw [← he, h, hn]

end SMWorkshop
